import Mathlib

set_option maxRecDepth 2000

/-!
Verification of the frame-selection / token-budget core of the claude-bug
repository, as a shallow embedding in Lean 4.

Modelling conventions used throughout this file:
* JavaScript numbers are modelled as `ℚ` (exact arithmetic); integer-valued
  quantities (array indices, counts) are modelled as `ℕ` or `ℤ`.
* Image decoding and perceptual diffing read files, so they are modelled by
  oracle parameters (`String → String → ℚ` for `calculateFrameDiff` results,
  `String → Option Image` for decoding).  Every other function is translated
  directly from the TypeScript source.
* `Array.prototype.sort` is stable in JavaScript; it is modelled by
  `List.insertionSort`, which is the stable sort for a non-strict comparator.
* Union string types (`'minimal' | 'standard' | 'detailed'`, positions) become
  inductive types; the JS string `'end'` is a Lean keyword, so the constructor
  is named `final`.
-/

/-- Verbosity levels of `PromptStyle.verbosity` in `types.ts`. -/
inductive Verbosity where
  | minimal
  | standard
  | detailed
deriving DecidableEq

/-- Causal focus levels of `PromptStyle.causalFocusLevel` in `types.ts`. -/
inductive FocusLevel where
  | low
  | medium
  | high
deriving DecidableEq

/-- `ContextBias` from `types.ts`. -/
structure ContextBias where
  visual : ℚ
  code : ℚ
  execution : ℚ
deriving DecidableEq

/-- `PromptStyle` from `types.ts`. -/
structure PromptStyle where
  verbosity : Verbosity
  includeTimelineRefs : Bool
  includeDiffCorrelation : Bool
  includeUncertaintyGuidance : Bool
  causalFocusLevel : FocusLevel
deriving DecidableEq

/-- `ModelProfile` from `types.ts`. -/
structure ModelProfile where
  name : String
  maxTokens : ℚ
  imageTokenEstimate : ℚ
  preferredFrames : ℕ
  maxFrames : ℕ
  contextBias : ContextBias
  promptStyle : PromptStyle
deriving DecidableEq

/-- `ExtractedFrame` from `types.ts`. -/
structure ExtractedFrame where
  index : ℕ
  path : String
  timestamp : ℚ
deriving DecidableEq

/-- `KeyFrame` from `types.ts` (flattened: it extends `ExtractedFrame`). -/
structure KeyFrame where
  index : ℕ
  path : String
  timestamp : ℚ
  diffScore : ℚ
  reason : String
  optimizedPath : String
  tokenEstimate : ℚ
deriving DecidableEq

/-- `ScoredFrame` from `types.ts` (flattened: it extends `KeyFrame`). -/
structure ScoredFrame where
  index : ℕ
  path : String
  timestamp : ℚ
  diffScore : ℚ
  reason : String
  optimizedPath : String
  tokenEstimate : ℚ
  entropyScore : ℚ
  reasoningValue : ℚ
  dropPriority : ℚ
deriving DecidableEq

/-- `FrameSelectionResult` from `types.ts`. -/
structure FrameSelectionResult where
  keyFrames : List KeyFrame
  totalExtracted : ℕ
  selectionReasons : List String
deriving DecidableEq

/-- `TerminalContext` from `types.ts`. -/
structure TerminalContext where
  recentOutput : List String
  errors : List String
  tokenEstimate : ℚ
deriving DecidableEq

/-- `GitContext` from `types.ts` (`diff: string | null` becomes `Option`). -/
structure GitContext where
  branch : String
  recentCommits : List String
  diff : Option String
  tokenEstimate : ℚ
deriving DecidableEq

/-- `CaptureContext` from `types.ts`. -/
structure CaptureContext where
  terminal : TerminalContext
  git : GitContext
deriving DecidableEq

/-- `TokenBreakdown` from `types.ts`, with the inline record fields
`frames`, `terminalContext`, `gitContext` flattened into named fields. -/
structure TokenBreakdown where
  framesCount : ℕ
  framesTokens : ℚ
  terminalLines : ℕ
  terminalTokens : ℚ
  gitDiffLines : ℕ
  gitTokens : ℚ
  reportStructure : ℚ
  suggestedPrompt : ℚ
deriving DecidableEq

/-- `TokenUtilization` from `types.ts`. -/
structure TokenUtilization where
  visual : ℚ
  text : ℚ
  prompt : ℚ
  total : ℚ
  budget : ℚ
  utilization : ℚ
  breakdown : TokenBreakdown
deriving DecidableEq

/-- `BudgetAllocation` from `types.ts`.  `frameCount`, `terminalLines` and
`gitDiffLines` may be negative in the source (floors of negative budgets),
so they are `ℤ`. -/
structure BudgetAllocation where
  frameCount : ℤ
  frameResolutionWidth : ℕ
  frameResolutionHeight : ℕ
  frameQuality : ℕ
  terminalLines : ℤ
  gitDiffLines : ℤ
  includeCommits : Bool
  includeFullDiff : Bool
  adjustments : List String
deriving DecidableEq

/-- JavaScript `Math.round`: round half toward positive infinity. -/
def jsRound (q : ℚ) : ℤ := ⌊q + 1/2⌋

/-- JavaScript `Number.prototype.toFixed(1)` for the non-negative scores that
appear in selection reasons. -/
def toFixed1 (q : ℚ) : String :=
  let m := jsRound (q * 10)
  toString (m / 10) ++ "." ++ toString (m % 10)

/-- JavaScript `array.slice(0, k)` where `k` may be negative (a negative end
counts from the end of the array). -/
def jsSliceTo (k : ℤ) (l : List α) : List α :=
  if k < 0 then l.take (l.length - (-k).toNat) else l.take k.toNat

/-!
## Token Budget Engine (`budget.ts`, `src/unnamed/part_011` lines 1-157)
-/

/-- The 5% safety margin of `calculateBudgetAllocation`:
`availableBudget = profile.maxTokens * 0.95`. -/
def availableBudgetQ (profile : ModelProfile) : ℚ := profile.maxTokens * 0.95

/-- The fixed structural reserve of `calculateBudgetAllocation`
(`structureReserve = 500`). -/
def structureReserveQ : ℚ := 500

/-- `workingBudget = availableBudget - structureReserve`. -/
def workingBudgetQ (profile : ModelProfile) : ℚ :=
  availableBudgetQ profile - structureReserveQ

/-- `visualBudget = workingBudget * profile.contextBias.visual`. -/
def visualBudgetQ (profile : ModelProfile) : ℚ :=
  workingBudgetQ profile * profile.contextBias.visual

/-- `codeBudget = workingBudget * profile.contextBias.code`. -/
def codeBudgetQ (profile : ModelProfile) : ℚ :=
  workingBudgetQ profile * profile.contextBias.code

/-- `execBudget = workingBudget * profile.contextBias.execution`. -/
def execBudgetQ (profile : ModelProfile) : ℚ :=
  workingBudgetQ profile * profile.contextBias.execution

/-- `calculateBudgetAllocation` from `budget.ts`.  The `context` parameter is
accepted and ignored exactly as in the source. -/
def calculateBudgetAllocation (profile : ModelProfile) (availableFrames : ℕ)
    (_context : CaptureContext) : BudgetAllocation :=
  let baseImageTokens := profile.imageTokenEstimate
  let frameCount0 : ℤ :=
    min (min ⌊visualBudgetQ profile / baseImageTokens⌋ (profile.preferredFrames : ℤ))
      (availableFrames : ℤ)
  let tryReduce : Bool :=
    decide (frameCount0 < (profile.preferredFrames : ℤ)) &&
      decide (frameCount0 < (availableFrames : ℤ))
  let reducedFrameCount : ℤ := ⌊visualBudgetQ profile / (baseImageTokens * 0.85)⌋
  let reduce : Bool := tryReduce && decide (frameCount0 < reducedFrameCount)
  let quality : ℕ := if reduce then 75 else 85
  let frameCount : ℤ :=
    if reduce then
      min (min reducedFrameCount (profile.preferredFrames : ℤ)) (availableFrames : ℤ)
    else frameCount0
  let terminalLines : ℤ := ⌊execBudgetQ profile / 4⌋
  let gitDiffLines : ℤ := ⌊codeBudgetQ profile / 4⌋
  let adjustments : List String :=
    (if quality < 85 then
      [s!"Reduced image quality to {quality}% to fit {frameCount} frames"] else []) ++
    (if frameCount < (profile.preferredFrames : ℤ) then
      [s!"Limited to {frameCount} frames (preferred: {profile.preferredFrames})"] else [])
  { frameCount := frameCount
    frameResolutionWidth := 1024
    frameResolutionHeight := 576
    frameQuality := quality
    terminalLines := min terminalLines 100
    gitDiffLines := min gitDiffLines 150
    includeCommits := decide (200 < codeBudgetQ profile)
    includeFullDiff := decide (500 < codeBudgetQ profile)
    adjustments := adjustments }

/-- `calculateTokenUtilization` from `budget.ts`. -/
def calculateTokenUtilization (profile : ModelProfile) (frames : List ScoredFrame)
    (context : CaptureContext) (promptTokens : ℚ) : TokenUtilization :=
  let visualTokens := (frames.map (fun f => f.tokenEstimate)).sum
  let textTokens := context.terminal.tokenEstimate + context.git.tokenEstimate
  let structureTokens : ℚ := 100
  let total := visualTokens + textTokens + structureTokens + promptTokens
  { visual := visualTokens
    text := textTokens
    prompt := promptTokens
    total := total
    budget := profile.maxTokens
    utilization := (total / profile.maxTokens) * 100
    breakdown :=
      { framesCount := frames.length
        framesTokens := visualTokens
        terminalLines := context.terminal.recentOutput.length
        terminalTokens := context.terminal.tokenEstimate
        gitDiffLines := match context.git.diff with
          | some d => (d.splitOn "\n").length
          | none => 0
        gitTokens := context.git.tokenEstimate
        reportStructure := structureTokens
        suggestedPrompt := promptTokens } }

/-- The advisory suggestion strings pushed by `validateBudget`, as tagged
values (`removeFrames n` stands for `"Remove ${n} lowest-entropy frames"`). -/
inductive Suggestion where
  | removeFrames (n : ℤ)
  | truncateTerminal
  | summarizeDiff
deriving DecidableEq

/-- The frame count suggested for removal by `validateBudget`:
`Math.ceil(overage / (visual / frames.count))`. -/
def framesToDropZ (u : TokenUtilization) : ℤ :=
  ⌈(u.total - u.budget * 0.95) / (u.visual / (u.breakdown.framesCount : ℚ))⌉

/-- `validateBudget` from `budget.ts`: valid iff the utilization percentage is
at most 95; otherwise suggestions are pushed in source order. -/
def validateBudget (u : TokenUtilization) : Bool × List Suggestion :=
  if u.utilization ≤ 95 then (true, [])
  else
    let s1 := if 4 < u.breakdown.framesCount then [Suggestion.removeFrames (framesToDropZ u)] else []
    let s2 := if 500 < u.text then [Suggestion.truncateTerminal] else []
    let s3 := if 50 < u.breakdown.gitDiffLines then [Suggestion.summarizeDiff] else []
    (false, s1 ++ s2 ++ s3)

/-!
## Built-in model profiles (`src/context.ts` lines 423-503)
-/

/-- The built-in `claude-code` profile. -/
def claudeCodeProfile : ModelProfile :=
  { name := "claude-code"
    maxTokens := 100000
    imageTokenEstimate := 1200
    preferredFrames := 6
    maxFrames := 10
    contextBias := { visual := 0.4, code := 0.4, execution := 0.2 }
    promptStyle :=
      { verbosity := Verbosity.minimal
        includeTimelineRefs := true
        includeDiffCorrelation := true
        includeUncertaintyGuidance := true
        causalFocusLevel := FocusLevel.high } }

/-- The built-in `claude-sonnet` profile. -/
def claudeSonnetProfile : ModelProfile :=
  { name := "claude-sonnet"
    maxTokens := 200000
    imageTokenEstimate := 1200
    preferredFrames := 8
    maxFrames := 12
    contextBias := { visual := 0.5, code := 0.3, execution := 0.2 }
    promptStyle :=
      { verbosity := Verbosity.standard
        includeTimelineRefs := true
        includeDiffCorrelation := true
        includeUncertaintyGuidance := true
        causalFocusLevel := FocusLevel.high } }

/-- The built-in `claude-opus` profile. -/
def claudeOpusProfile : ModelProfile :=
  { name := "claude-opus"
    maxTokens := 200000
    imageTokenEstimate := 1200
    preferredFrames := 10
    maxFrames := 15
    contextBias := { visual := 0.45, code := 0.35, execution := 0.2 }
    promptStyle :=
      { verbosity := Verbosity.detailed
        includeTimelineRefs := true
        includeDiffCorrelation := true
        includeUncertaintyGuidance := true
        causalFocusLevel := FocusLevel.high } }

/-- The built-in `claude-haiku` profile. -/
def claudeHaikuProfile : ModelProfile :=
  { name := "claude-haiku"
    maxTokens := 200000
    imageTokenEstimate := 1200
    preferredFrames := 4
    maxFrames := 6
    contextBias := { visual := 0.5, code := 0.3, execution := 0.2 }
    promptStyle :=
      { verbosity := Verbosity.minimal
        includeTimelineRefs := true
        includeDiffCorrelation := false
        includeUncertaintyGuidance := false
        causalFocusLevel := FocusLevel.medium } }

/-!
## Model profile registry (`src/context.ts` lines 505-526)

The JS module keeps `MODEL_PROFILES` as a mutable string-keyed object; it is
modelled as an association list threaded explicitly.  Object assignment
overwrites an existing key in place and appends a new key at the end, and
lookup returns the first (only) binding of a key.
-/

/-- The registry state: an insertion-ordered map from keys to profiles. -/
abbrev Registry := List (String × ModelProfile)

/-- Lookup of `MODEL_PROFILES[key]`. -/
def lookupReg (r : Registry) (key : String) : Option ModelProfile :=
  (List.find? (fun e => e.1 == key) r).map (fun e => e.2)

/-- Assignment `MODEL_PROFILES[key] = p`. -/
def setReg (r : Registry) (key : String) (p : ModelProfile) : Registry :=
  if List.any r (fun e => e.1 == key) then
    List.map (fun e => if e.1 == key then (key, p) else e) r
  else r ++ [(key, p)]

/-- The initial `MODEL_PROFILES` object. -/
def builtinProfiles : Registry :=
  [("claude-code", claudeCodeProfile),
   ("claude-sonnet", claudeSonnetProfile),
   ("claude-opus", claudeOpusProfile),
   ("claude-haiku", claudeHaikuProfile)]

/-- JavaScript `name.toLowerCase()`.  The names in scope are ASCII, so the
ASCII `Char.toLower` is a faithful model. -/
def jsToLower (s : String) : String := ⟨s.data.map Char.toLower⟩

/-- The lookup normalization of `getModelProfile`:
`name.toLowerCase().replace(/[^a-z]/g, '-')`. -/
def normalizeName (s : String) : String :=
  ⟨(jsToLower s).data.map (fun c => if c.isLower then c else '-')⟩

/-- `getModelProfile` from `src/context.ts`:
`MODEL_PROFILES[normalized] ?? MODEL_PROFILES['claude-code']`.  The final
`getD` default is unreachable while the registry maps `"claude-code"`. -/
def getModelProfile (r : Registry) (name : String) : ModelProfile :=
  (lookupReg r (normalizeName name)).getD
    ((lookupReg r "claude-code").getD claudeCodeProfile)

/-- `registerModelProfile` from `src/context.ts`:
`MODEL_PROFILES[profile.name.toLowerCase()] = profile`. -/
def registerModelProfile (r : Registry) (p : ModelProfile) : Registry :=
  setReg r (jsToLower p.name) p

/-- A name made of `a-z` letters and hyphens only: exactly the names that the
lookup normalization leaves unchanged. -/
def goodName (s : String) : Bool :=
  s.data.all (fun c => c.isLower || c == '-')

/-!
## Perceptual Diff Engine (`selection.ts`, `src/unnamed/part_005` lines 8-47)

Jimp image decoding and resampling are external I/O; they are modelled by the
oracle parameters `readImage` and `resize`.  The pixel comparison itself is
translated directly.
-/

/-- A decoded bitmap: dimensions plus an RGB channel lookup per pixel. -/
structure Image where
  width : ℕ
  height : ℕ
  pixel : ℕ → ℕ → ℕ × ℕ × ℕ

/-- One pixel comparison of `calculateFrameDiff`: the per-channel absolute
differences summed, tested against `threshold * 3` with `threshold = 25`. -/
def pixelDiffers (i1 i2 : Image) (x y : ℕ) : Bool :=
  let p := i1.pixel x y
  let q := i2.pixel x y
  let d := ((p.1 : ℤ) - q.1).natAbs + ((p.2.1 : ℤ) - q.2.1).natAbs +
    ((p.2.2 : ℤ) - q.2.2).natAbs
  decide (25 * 3 < d)

/-- The `scan` loop of `calculateFrameDiff`: the number of significantly
different pixels in the `w × h` region. -/
def countDiffPixels (i1 i2 : Image) (w h : ℕ) : ℕ :=
  ((List.range h).map
    (fun y => ((List.range w).filter (fun x => pixelDiffers i1 i2 x y)).length)).sum

/-- `calculateFrameDiff` from `selection.ts`.  Both images are resized to the
smaller common dimensions, differing pixels are counted, and the result is a
percentage.  A decode failure of either image is caught and mapped to `100`;
the function is total (the error never escapes to the caller). -/
def calculateFrameDiff (readImage : String → Option Image)
    (resize : Image → ℕ → ℕ → Image) (framePath1 framePath2 : String) : ℚ :=
  match readImage framePath1, readImage framePath2 with
  | some img1, some img2 =>
    let w := min img1.width img2.width
    let h := min img1.height img2.height
    let r1 := resize img1 w h
    let r2 := resize img2 w h
    ((countDiffPixels r1 r2 w h : ℚ) / ((w * h : ℕ) : ℚ)) * 100
  | _, _ => 100

/-!
## Entropy/Reasoning Scorer (`model-selection.ts`, `src/frames.ts` lines 148-193)

`calculateFrameDiff` reads image files, so the selectors below take a diff
oracle `diffOf : String → String → ℚ` standing for
`(a, b) ↦ calculateFrameDiff a b`.
-/

/-- `calculateEntropyScore` from `src/frames.ts`.  The `nextFrame` parameter is
accepted and ignored exactly as in the source. -/
def calculateEntropyScore (diffOf : String → String → ℚ) (frame : ExtractedFrame)
    (prevFrame : Option ExtractedFrame) (_nextFrame : Option ExtractedFrame)
    (totalFrames : ℕ) : ℚ :=
  let base : ℚ := 0.5
  let position : ℚ := (frame.index : ℚ) / (totalFrames : ℚ)
  let s1 := base + (if position < 0.1 then 0.2 else 0)
  let s2 := s1 + (if 0.9 < position then 0.2 else 0)
  let s3 := s2 + (if 0.4 < position ∧ position < 0.6 then 0.1 else 0)
  let s4 := match prevFrame with
    | none => s3
    | some prev => s3 + min (diffOf prev.path frame.path / 100) 0.3
  min s4 1.0

/-- The `'start' | 'middle' | 'end'` position tag (`'end'` is a Lean keyword,
so it becomes `final`). -/
inductive FramePosition where
  | start
  | middle
  | final
deriving DecidableEq

/-- `calculateReasoningValue` from `src/frames.ts`. -/
def calculateReasoningValue (entropyScore : ℚ) (position : FramePosition)
    (profile : ModelProfile) : ℚ :=
  let v1 := entropyScore
  let v2 := if profile.promptStyle.causalFocusLevel = FocusLevel.high ∧
      position = FramePosition.middle then v1 * 1.2 else v1
  let v3 := v2 * (0.5 + profile.contextBias.visual)
  min v3 1.0

/-- Placeholder frame for out-of-range `getD` accesses that the source
guarantees never happen. -/
def junkEF : ExtractedFrame := { index := 0, path := "", timestamp := 0 }

/-- Placeholder scored frame for out-of-range `getD` accesses. -/
def junkSF : ScoredFrame :=
  { index := 0, path := "", timestamp := 0, diffScore := 0, reason := ""
    optimizedPath := "", tokenEstimate := 0, entropyScore := 0
    reasoningValue := 0, dropPriority := 0 }

/-- The scoring loop of `selectModelAlignedFrames` (lines 213-232): each frame
is scored with its predecessor, successor, position tag and the model profile.
`prev` is the frame before the current one (`null` for the first), `i` the
current loop index. -/
def scoreGo (diffOf : String → String → ℚ) (profile : ModelProfile) (total : ℕ)
    (prev : Option ExtractedFrame) (i : ℕ) :
    List ExtractedFrame → List ScoredFrame
  | [] => []
  | f :: rest =>
    let entropy := calculateEntropyScore diffOf f prev rest.head? total
    let pos := if i = 0 then FramePosition.start
      else if i = total - 1 then FramePosition.final else FramePosition.middle
    let rv := calculateReasoningValue entropy pos profile
    { index := f.index, path := f.path, timestamp := f.timestamp
      diffScore := 0, reason := "", optimizedPath := ""
      tokenEstimate := profile.imageTokenEstimate
      entropyScore := entropy, reasoningValue := rv
      dropPriority := 1 - rv } :: scoreGo diffOf profile total (some f) (i + 1) rest

/-- In-place update of one list position (JS mutation of an array element). -/
def listModify (g : α → α) : ℕ → List α → List α
  | _, [] => []
  | 0, a :: t => g a :: t
  | k + 1, a :: t => a :: listModify g k t

/-- The anchor mutation for `scored[0]` (lines 236-237). -/
def startAnchor (f : ScoredFrame) : ScoredFrame :=
  { f with reason := "Start of capture - baseline state", dropPriority := 0 }

/-- The anchor mutation for `scored[scored.length - 1]` (lines 238-239). -/
def endAnchor (f : ScoredFrame) : ScoredFrame :=
  { f with reason := "End of capture - final failure state", dropPriority := 0 }

/-- Lines 235-239 of `src/frames.ts`: both anchors are mutated in place inside
the scored array (for a single frame the end mutation overwrites the start
one, exactly as the aliased JS objects do). -/
def applyAnchors (l : List ScoredFrame) : List ScoredFrame :=
  listModify endAnchor (l.length - 1) (listModify startAnchor 0 l)

/-- The candidate reason assignment of lines 248-256. -/
def assignReason (f : ScoredFrame) : ScoredFrame :=
  if 0.7 < f.reasoningValue then
    let n := jsRound (f.entropyScore * 100)
    { f with reason := s!"High-entropy transition - {n}% information density" }
  else if 0.5 < f.entropyScore then
    { f with reason := "State change detected - temporal divergence point" }
  else
    { f with reason := "Coverage frame - maintains temporal continuity" }

/-- Chronological order on scored frames (JS comparator `a.index - b.index`;
the JS sort is stable, hence `List.insertionSort` below). -/
def idxLe (a b : ScoredFrame) : Prop := a.index ≤ b.index

instance : DecidableRel idxLe := fun a b => Nat.decLe a.index b.index

instance : IsTotal ScoredFrame idxLe := ⟨fun a b => Nat.le_total a.index b.index⟩

instance : IsTrans ScoredFrame idxLe := ⟨fun _ _ _ => Nat.le_trans⟩

/-- Descending reasoning-value order (JS comparator
`b.reasoningValue - a.reasoningValue`). -/
def rvGe (a b : ScoredFrame) : Prop := b.reasoningValue ≤ a.reasoningValue

instance : DecidableRel rvGe := fun a b => inferInstanceAs (Decidable (_ ≤ _))

instance : IsTotal ScoredFrame rvGe := ⟨fun a b => le_total b.reasoningValue a.reasoningValue⟩

instance : IsTrans ScoredFrame rvGe := ⟨fun _ _ _ h h2 => le_trans h2 h⟩

/-- Ascending drop-priority order (JS comparator
`a.dropPriority - b.dropPriority`). -/
def dpLe (a b : ScoredFrame) : Prop := a.dropPriority ≤ b.dropPriority

instance : DecidableRel dpLe := fun a b => inferInstanceAs (Decidable (_ ≤ _))

instance : IsTotal ScoredFrame dpLe := ⟨fun a b => le_total a.dropPriority b.dropPriority⟩

instance : IsTrans ScoredFrame dpLe := ⟨fun _ _ _ => le_trans⟩

/-- One iteration body of the `ensureTemporalCoverage` loop (lines 279-290):
inspect the gap between `result[i]` and `result[i+1]` and insert the frame at
the floor midpoint index when the gap is oversized, the frame exists, and it
is not yet selected.  JS object identity of frames is realised as equality of
the `index` field, which is exact whenever the frame indices are distinct. -/
def etcStep (allFrames : List ScoredFrame) (maxGap : ℚ) (i : ℕ)
    (result : List ScoredFrame) : List ScoredFrame :=
  let a := result.getD i junkSF
  let b := result.getD (i + 1) junkSF
  let gap : ℚ := (b.index : ℚ) - (a.index : ℚ)
  if maxGap < gap then
    let midIndex := (a.index + b.index) / 2
    match allFrames.find? (fun f => f.index == midIndex) with
    | some fillFrame =>
      if result.any (fun g => g.index == fillFrame.index) then result
      else result.insertIdx (i + 1)
        { fillFrame with reason := "Coverage frame - filling temporal gap" }
    | none => result
  else result

/-- The `for` loop of `ensureTemporalCoverage`: `i` advances by one each
iteration (also across an insertion at `i+1`, so a freshly split left half is
never re-inspected), and the loop stops as soon as `i` reaches the end or the
result has grown to `maxCount`. -/
def etcGo (allFrames : List ScoredFrame) (maxCount : ℕ) (maxGap : ℚ) (i : ℕ)
    (result : List ScoredFrame) : List ScoredFrame :=
  if h : i + 1 < result.length ∧ result.length < maxCount then
    etcGo allFrames maxCount maxGap (i + 1) (etcStep allFrames maxGap i result)
  else result
termination_by maxCount - i
decreasing_by omega

/-- `ensureTemporalCoverage` from `src/frames.ts` (lines 271-293):
`maxGap = allFrames.length * 0.25`, then the gap-filling walk, then a final
chronological sort. -/
def ensureTemporalCoverage (selected allFrames : List ScoredFrame)
    (maxCount : ℕ) : List ScoredFrame :=
  let maxGap : ℚ := (allFrames.length : ℚ) * 0.25
  List.insertionSort idxLe (etcGo allFrames maxCount maxGap 0 selected)

/-- The fully scored and anchor-mutated array `scored` of
`selectModelAlignedFrames` (lines 210-239). -/
def smafScored (diffOf : String → String → ℚ) (frames : List ExtractedFrame)
    (profile : ModelProfile) : List ScoredFrame :=
  applyAnchors (scoreGo diffOf profile frames.length none 0 frames)

/-- The `candidates` of `selectModelAlignedFrames` (lines 242-256): the
interior frames sorted by descending reasoning value, cut to
`targetCount - 2` (computed in `ℤ` because `Array.slice` treats a negative
end as counting from the end), with their selection reasons assigned. -/
def smafCandidates (diffOf : String → String → ℚ) (frames : List ExtractedFrame)
    (profile : ModelProfile) (targetCount : ℕ) : List ScoredFrame :=
  (jsSliceTo ((targetCount : ℤ) - 2)
    (List.insertionSort rvGe
      (((smafScored diffOf frames profile).drop 1).dropLast))).map assignReason

/-- The chronologically sorted `selected` of lines 259-260: first anchor,
candidates, last anchor. -/
def smafSelected (diffOf : String → String → ℚ) (frames : List ExtractedFrame)
    (profile : ModelProfile) (targetCount : ℕ) : List ScoredFrame :=
  List.insertionSort idxLe
    ((smafScored diffOf frames profile).getD 0 junkSF ::
      smafCandidates diffOf frames profile targetCount ++
      [(smafScored diffOf frames profile).getD
        ((smafScored diffOf frames profile).length - 1) junkSF])

/-- `selectModelAlignedFrames` from `src/frames.ts` (lines 205-266).  On an
empty frame array the source throws (`anchors[0]` is `undefined`), modelled as
`none`. -/
def selectModelAlignedFrames (diffOf : String → String → ℚ)
    (frames : List ExtractedFrame) (profile : ModelProfile)
    (targetCount : ℕ) : Option (List ScoredFrame) :=
  if frames.isEmpty then none
  else some (ensureTemporalCoverage
    (smafSelected diffOf frames profile targetCount)
    (smafScored diffOf frames profile) targetCount)

/-- `dropFramesForBudget` from `src/frames.ts` (lines 298-312): stable sort by
ascending drop priority, keep the first `targetCount`, restore chronological
order. -/
def dropFramesForBudget (frames : List ScoredFrame) (targetCount : ℕ) :
    List ScoredFrame :=
  if frames.length ≤ targetCount then frames
  else List.insertionSort idxLe ((List.insertionSort dpLe frames).take targetCount)

/-!
## Threshold Selector (`selection.ts`, `src/unnamed/part_005` lines 52-195)
-/

/-- `generateSelectionReason` from `selection.ts`. -/
def generateSelectionReason (diffScore : ℚ) (isFirst isLast : Bool) : String :=
  if isFirst then "Start of capture"
  else if isLast then "End of capture"
  else
    let s := toFixed1 diffScore
    if 20 ≤ diffScore then s!"{s}% visual change - major UI update"
    else if 10 ≤ diffScore then s!"{s}% visual change - significant change"
    else if 5 ≤ diffScore then s!"{s}% visual change - content update"
    else s!"{s}% visual change - minor change"

/-- `FrameCandidate` from `selection.ts`. -/
structure FrameCandidate where
  frame : ExtractedFrame
  diffScore : ℚ
  isFirst : Bool
  isLast : Bool
deriving DecidableEq

/-- Placeholder candidate for out-of-range `getD` accesses. -/
def junkFC : FrameCandidate :=
  { frame := junkEF, diffScore := 0, isFirst := false, isLast := false }

/-- The candidate-building loop of `selectKeyFrames` (lines 129-144): each
frame is paired with the diff from its predecessor (0 for the first frame)
and the first/last tags. -/
def candGo (diffOf : String → String → ℚ) (total : ℕ)
    (prev : Option ExtractedFrame) (i : ℕ) :
    List ExtractedFrame → List FrameCandidate
  | [] => []
  | f :: rest =>
    { frame := f
      diffScore := match prev with
        | none => 0
        | some p => diffOf p.path f.path
      isFirst := decide (i = 0)
      isLast := decide (i = total - 1) } :: candGo diffOf total (some f) (i + 1) rest

/-- Descending diff-score order (JS comparator `b.diffScore - a.diffScore`). -/
def dsGe (a b : FrameCandidate) : Prop := b.diffScore ≤ a.diffScore

instance : DecidableRel dsGe := fun a b => inferInstanceAs (Decidable (_ ≤ _))

/-- Chronological order on candidates (`a.frame.index - b.frame.index`). -/
def fcIdxLe (a b : FrameCandidate) : Prop := a.frame.index ≤ b.frame.index

instance : DecidableRel fcIdxLe := fun a b => Nat.decLe a.frame.index b.frame.index

/-- `selectKeyFrames` from `selection.ts` (lines 96-195).  The evenly-spaced
fill loop threads the growing `Set` of chosen indices as a list with the same
membership. -/
def selectKeyFrames (diffOf : String → String → ℚ) (frames : List ExtractedFrame)
    (targetCount : ℕ) (diffThreshold : ℚ) : FrameSelectionResult :=
  if frames.isEmpty then
    { keyFrames := [], totalExtracted := 0, selectionReasons := [] }
  else if frames.length ≤ targetCount then
    let keyFrames := (List.range frames.length).map (fun i =>
      let f := frames.getD i junkEF
      ({ index := f.index, path := f.path, timestamp := f.timestamp
         diffScore := 0
         reason := if i = 0 then "Start of capture"
           else if i = frames.length - 1 then "End of capture" else "Selected frame"
         optimizedPath := "", tokenEstimate := 0 } : KeyFrame))
    { keyFrames := keyFrames
      totalExtracted := frames.length
      selectionReasons := keyFrames.map (fun f => f.reason) }
  else
    let cands := candGo diffOf frames.length none 0 frames
    let firstCand := cands.getD 0 junkFC
    let lastCand := cands.getD (cands.length - 1) junkFC
    let middleCandidates :=
      List.insertionSort dsGe
        (((cands.drop 1).dropLast).filter (fun c => diffThreshold ≤ c.diffScore))
    let toSelect : ℤ := min (middleCandidates.length : ℤ) ((targetCount : ℤ) - 2)
    let selected0 := [firstCand, lastCand] ++ jsSliceTo toSelect middleCandidates
    let selected :=
      if selected0.length < targetCount then
        let remaining := targetCount - selected0.length
        let step := frames.length / (remaining + 1)
        (((List.range' 1 remaining).foldl (fun st i =>
          let idx := i * step
          if 0 < idx ∧ idx < frames.length - 1 ∧ idx ∉ st.2 then
            (st.1 ++ [cands.getD idx junkFC], st.2 ++ [idx])
          else st)
          (selected0, selected0.map (fun c => c.frame.index)))).1
      else selected0
    let sortedSel := List.insertionSort fcIdxLe selected
    let keyFrames := sortedSel.map (fun c =>
      ({ index := c.frame.index, path := c.frame.path, timestamp := c.frame.timestamp
         diffScore := c.diffScore
         reason := generateSelectionReason c.diffScore c.isFirst c.isLast
         optimizedPath := "", tokenEstimate := 0 } : KeyFrame))
    { keyFrames := keyFrames
      totalExtracted := frames.length
      selectionReasons := keyFrames.map (fun f => f.reason) }

/-!
## Shared test fixtures
-/

/-- A diff oracle that reports no perceptual change for any pair. -/
def zeroOracle : String → String → ℚ := fun _ _ => 0

/-- A scored frame with a given index and drop priority (all other fields
inert), for concrete evictor runs. -/
def testSF (i : ℕ) (dp : ℚ) : ScoredFrame :=
  { index := i, path := "", timestamp := 0, diffScore := 0, reason := ""
    optimizedPath := "", tokenEstimate := 0, entropyScore := 0
    reasoningValue := 0, dropPriority := dp }

/-- An extracted frame with index `i` (frames as produced by `extractFrames`,
whose `index` equals the array position). -/
def testEF (i : ℕ) : ExtractedFrame := { index := i, path := toString i, timestamp := 0 }

/-!
## C5: budget partition identity
-/

/-- C5.  For every model profile whose context-bias components sum exactly
to 1, the derived sub-budgets satisfy
`visualBudget + codeBudget + execBudget + structureReserve = 0.95 * maxTokens`
(exactly, in `ℚ`). -/
theorem budget_partition_sum (profile : ModelProfile)
    (hsum : profile.contextBias.visual + profile.contextBias.code +
      profile.contextBias.execution = 1) :
    visualBudgetQ profile + codeBudgetQ profile + execBudgetQ profile +
      structureReserveQ = 0.95 * profile.maxTokens := by
  simp only [visualBudgetQ, codeBudgetQ, execBudgetQ, workingBudgetQ,
    availableBudgetQ, structureReserveQ]
  linear_combination (profile.maxTokens * 0.95 - 500) * hsum

/-- Witness for C5 at the built-in `claude-code` profile. -/
theorem budget_partition_sum_witness :
    claudeCodeProfile.contextBias.visual + claudeCodeProfile.contextBias.code +
      claudeCodeProfile.contextBias.execution = 1 ∧
    visualBudgetQ claudeCodeProfile + codeBudgetQ claudeCodeProfile +
      execBudgetQ claudeCodeProfile + structureReserveQ =
      0.95 * claudeCodeProfile.maxTokens :=
  ⟨by with_unfolding_all rfl,
   budget_partition_sum claudeCodeProfile (by with_unfolding_all rfl)⟩

/-!
## C6: derived text limits of the budget allocation
-/

/-- C6.  For every profile, available frame count and context, the allocation
has `terminalLines = min(floor(execBudget/4), 100)`,
`gitDiffLines = min(floor(codeBudget/4), 150)`,
`includeCommits ↔ codeBudget > 200` and `includeFullDiff ↔ codeBudget > 500`. -/
theorem calculateBudgetAllocation_text_fields (profile : ModelProfile)
    (availableFrames : ℕ) (context : CaptureContext) :
    (calculateBudgetAllocation profile availableFrames context).terminalLines =
      min ⌊execBudgetQ profile / 4⌋ 100 ∧
    (calculateBudgetAllocation profile availableFrames context).gitDiffLines =
      min ⌊codeBudgetQ profile / 4⌋ 150 ∧
    ((calculateBudgetAllocation profile availableFrames context).includeCommits = true ↔
      200 < codeBudgetQ profile) ∧
    ((calculateBudgetAllocation profile availableFrames context).includeFullDiff = true ↔
      500 < codeBudgetQ profile) :=
  ⟨rfl, rfl, decide_eq_true_iff, decide_eq_true_iff⟩

/-!
## C8: decode failure is recovered as maximal difference
-/

/-- C8.  If either image cannot be decoded, `calculateFrameDiff` returns 100.
The Lean model is a total function, which captures that the caught decode
error never propagates to the caller. -/
theorem calculateFrameDiff_decode_failure (readImage : String → Option Image)
    (resize : Image → ℕ → ℕ → Image) (framePath1 framePath2 : String)
    (h : readImage framePath1 = none ∨ readImage framePath2 = none) :
    calculateFrameDiff readImage resize framePath1 framePath2 = 100 := by
  unfold calculateFrameDiff
  rcases h with h | h
  · rw [h]
  · rw [h]
    cases readImage framePath1 <;> rfl

/-- A reader for which no path decodes. -/
def noDecode : String → Option Image := fun _ => none

/-- A trivial resampler (never reached when decoding fails). -/
def idResize : Image → ℕ → ℕ → Image := fun i _ _ => i

/-- Witness for C8 at a concrete failing reader. -/
theorem calculateFrameDiff_decode_failure_witness :
    noDecode "frame_0001.png" = none ∧
    calculateFrameDiff noDecode idResize "frame_0001.png" "frame_0002.png" = 100 :=
  ⟨rfl, calculateFrameDiff_decode_failure noDecode idResize _ _ (Or.inl rfl)⟩

/-!
## C10: entropy scores stay in `[0.5, 1]`
-/

/-- The bound on the only diff value `calculateEntropyScore` consumes: when a
previous frame exists, its diff against the current frame lies in `[0, 100]`. -/
def entropyDiffOk (diffOf : String → String → ℚ) (frame : ExtractedFrame) :
    Option ExtractedFrame → Bool
  | none => true
  | some prev => decide (0 ≤ diffOf prev.path frame.path) &&
      decide (diffOf prev.path frame.path ≤ 100)

/-- C10.  `calculateEntropyScore` never leaves `[0.5, 1.0]` when the pairwise
frame diff lies in `[0, 100]`. -/
theorem calculateEntropyScore_bounds (diffOf : String → String → ℚ)
    (frame : ExtractedFrame) (prevFrame nextFrame : Option ExtractedFrame)
    (totalFrames : ℕ) (h : entropyDiffOk diffOf frame prevFrame = true) :
    0.5 ≤ calculateEntropyScore diffOf frame prevFrame nextFrame totalFrames ∧
      calculateEntropyScore diffOf frame prevFrame nextFrame totalFrames ≤ 1 := by
  unfold calculateEntropyScore
  simp only []
  refine ⟨le_min ?_ (by norm_num), le_trans (min_le_right _ _) (by norm_num)⟩
  rcases prevFrame with _ | prev
  · simp only []
    split_ifs <;> norm_num
  · simp only [entropyDiffOk, Bool.and_eq_true, decide_eq_true_eq] at h
    have hd : (0 : ℚ) ≤ diffOf prev.path frame.path / 100 :=
      div_nonneg h.1 (by norm_num)
    have hmin : (0 : ℚ) ≤ min (diffOf prev.path frame.path / 100) 0.3 :=
      le_min hd (by norm_num)
    simp only []
    split_ifs <;> linarith

/-- Witness for C10 at a concrete frame pair and the zero diff oracle. -/
theorem calculateEntropyScore_bounds_witness :
    entropyDiffOk zeroOracle (testEF 1) (some (testEF 0)) = true ∧
    0.5 ≤ calculateEntropyScore zeroOracle (testEF 1) (some (testEF 0)) none 10 ∧
      calculateEntropyScore zeroOracle (testEF 1) (some (testEF 0)) none 10 ≤ 1 :=
  ⟨by with_unfolding_all rfl,
   calculateEntropyScore_bounds zeroOracle (testEF 1) (some (testEF 0)) none 10
     (by with_unfolding_all rfl)⟩

/-!
## C4: `validateBudget` characterization
-/

/-- C4 (amended).  `validateBudget` is valid exactly when the utilization
percentage is at most 95; when invalid, the frame-removal suggestion (with the
exact `ceil(overage / average-per-frame cost)` count) appears exactly when
more than 4 frames remain, the terminal-truncation suggestion appears exactly
when the *combined* text token cost (terminal + git) exceeds 500, and the
diff-summary suggestion appears exactly when the diff line count exceeds 50. -/
theorem validateBudget_characterization (u : TokenUtilization) :
    (validateBudget u).1 = decide (u.utilization ≤ 95) ∧
    (Suggestion.removeFrames (framesToDropZ u) ∈ (validateBudget u).2 ↔
      95 < u.utilization ∧ 4 < u.breakdown.framesCount) ∧
    (Suggestion.truncateTerminal ∈ (validateBudget u).2 ↔
      95 < u.utilization ∧ 500 < u.text) ∧
    (Suggestion.summarizeDiff ∈ (validateBudget u).2 ↔
      95 < u.utilization ∧ 50 < u.breakdown.gitDiffLines) := by
  unfold validateBudget
  rcases le_or_lt u.utilization 95 with h | h
  · simp [h, not_lt.mpr h]
  · simp only [not_le.mpr h, if_false, h, true_and]
    refine ⟨by simp [decide_eq_false (not_le.mpr h)], ?_, ?_, ?_⟩ <;>
      split_ifs <;> simp_all

/-- A capture context whose terminal context costs 0 tokens but whose git
context costs 600. -/
def ctxSplitText : CaptureContext :=
  { terminal := { recentOutput := [], errors := [], tokenEstimate := 0 }
    git := { branch := "", recentCommits := [], diff := none, tokenEstimate := 600 } }

/-- The utilization of that context against a 100-token budget. -/
def uSplitText : TokenUtilization :=
  calculateTokenUtilization { claudeCodeProfile with maxTokens := 100 } [] ctxSplitText 0

/-- C4 counterexample.  The claim ties the terminal-truncation suggestion to
the *terminal* token cost exceeding 500, but the source tests the combined
`utilization.text`: here the terminal context costs 0 tokens, yet the
truncation suggestion is emitted. -/
theorem validateBudget_truncation_not_terminal_only :
    Suggestion.truncateTerminal ∈ (validateBudget uSplitText).2 ∧
    uSplitText.breakdown.terminalTokens ≤ 500 ∧
    ¬ uSplitText.utilization ≤ 95 :=
  of_decide_eq_true (by with_unfolding_all rfl)

/-!
## C7: Scenario D of the threshold selector
-/

/-- Ten frames with `index = position`, as `extractFrames` produces them. -/
def framesTen : List ExtractedFrame := (List.range 10).map testEF

/-- C7.  For 10 frames whose pairwise diff is always 0, `targetCount = 6` and
`diffThreshold = 3`, the threshold selector falls back to the evenly spaced
fill (`step = floor(10 / 5) = 2`, chosen interior indices 2,4,6,8) and returns
exactly 6 frames including both anchors. -/
theorem selectKeyFrames_scenarioD :
    (selectKeyFrames zeroOracle framesTen 6 3).keyFrames.length = 6 ∧
    (selectKeyFrames zeroOracle framesTen 6 3).keyFrames.map KeyFrame.index =
      [0, 2, 4, 6, 8, 9] ∧
    0 ∈ (selectKeyFrames zeroOracle framesTen 6 3).keyFrames.map KeyFrame.index ∧
    9 ∈ (selectKeyFrames zeroOracle framesTen 6 3).keyFrames.map KeyFrame.index :=
  ⟨by with_unfolding_all rfl, by with_unfolding_all rfl,
   of_decide_eq_true (by with_unfolding_all rfl),
   of_decide_eq_true (by with_unfolding_all rfl)⟩

/-!
## C9: registry round-trip
-/

/-- A registered profile whose name contains a dot. -/
def dotProfile : ModelProfile :=
  { claudeCodeProfile with name := "claude.sonnet", maxTokens := 42 }

/-- C9 counterexample.  The claim says any name that does not normalize to
itself resolves to the built-in `claude-code` default.  But the lookup
normalization maps `"claude.sonnet"` to `"claude-sonnet"`, so after
registering `dotProfile` the lookup returns the built-in `claude-sonnet`
profile - neither the registered profile nor the `claude-code` default. -/
theorem getModelProfile_dot_hits_other_builtin :
    getModelProfile (registerModelProfile builtinProfiles dotProfile)
      "claude.sonnet" = claudeSonnetProfile ∧
    claudeSonnetProfile ≠ claudeCodeProfile ∧
    claudeSonnetProfile ≠ dotProfile :=
  ⟨by with_unfolding_all rfl, of_decide_eq_true (by with_unfolding_all rfl),
   of_decide_eq_true (by with_unfolding_all rfl)⟩

/-!
## C1: the evictor and zero-priority frames
-/

/-- C1 counterexample.  A list whose first and last frames carry
`dropPriority = 0` and `targetCount = 2 ≥ 2`, yet the evictor removes the
last anchor: with *three* frames of priority 0, the stable sort keeps the
first two and drops the third, which is the final anchor. -/
theorem dropFramesForBudget_drops_zero_priority_anchor :
    (testSF 0 0).dropPriority = 0 ∧
    (testSF 2 0).dropPriority = 0 ∧
    dropFramesForBudget [testSF 0 0, testSF 1 0, testSF 2 0] 2 =
      [testSF 0 0, testSF 1 0] ∧
    testSF 2 0 ∉ dropFramesForBudget [testSF 0 0, testSF 1 0, testSF 2 0] 2 :=
  ⟨by with_unfolding_all rfl, by with_unfolding_all rfl,
   by with_unfolding_all rfl, of_decide_eq_true (by with_unfolding_all rfl)⟩

/-- C1 (amended).  `dropFramesForBudget` never removes a frame with
`dropPriority = 0` provided all priorities are non-negative (as the scorer
produces them) and at most `targetCount` frames carry priority 0 - in
particular, when the two anchors are the only zero-priority frames and
`targetCount ≥ 2`, both anchors are retained. -/
theorem dropFramesForBudget_keeps_zero_priority (frames : List ScoredFrame)
    (targetCount : ℕ)
    (h0 : frames.all (fun f => decide (0 ≤ f.dropPriority)) = true)
    (hc : frames.countP (fun f => decide (f.dropPriority = 0)) ≤ targetCount) :
    ∀ f ∈ frames, f.dropPriority = 0 → f ∈ dropFramesForBudget frames targetCount := by
  intro f hf hfdp
  have h0' : ∀ g ∈ frames, 0 ≤ g.dropPriority := by
    intro g hg
    have := (List.all_eq_true.mp h0) g hg
    exact of_decide_eq_true this
  unfold dropFramesForBudget
  split
  · exact hf
  · rename_i hlen
    have hperm : List.Perm (List.insertionSort dpLe frames) frames :=
      List.perm_insertionSort dpLe frames
    have hsorted : List.Sorted dpLe (List.insertionSort dpLe frames) :=
      List.sorted_insertionSort dpLe frames
    generalize hsorted_def : List.insertionSort dpLe frames = sorted at *
    have hsortlen : sorted.length = frames.length := hperm.length_eq
    have hf_sorted : f ∈ sorted := hperm.mem_iff.mpr hf
    have hmem_final : f ∈ sorted.take targetCount →
        f ∈ List.insertionSort idxLe (sorted.take targetCount) := by
      intro h
      exact (List.perm_insertionSort idxLe _).mem_iff.mpr h
    apply hmem_final
    by_contra hnot
    have hdrop : f ∈ sorted.drop targetCount := by
      rcases (List.mem_append.mp (by rw [List.take_append_drop targetCount sorted]; exact hf_sorted)) with h | h
      · exact absurd h hnot
      · exact h
    have hsplit : ∀ a ∈ sorted.take targetCount, ∀ b ∈ sorted.drop targetCount, dpLe a b := by
      have := hsorted
      rw [← List.take_append_drop targetCount sorted] at this
      exact (List.pairwise_append.mp this).2.2
    have htake_zero : ∀ a ∈ sorted.take targetCount, a.dropPriority = 0 := by
      intro a ha
      have hle : a.dropPriority ≤ f.dropPriority := hsplit a ha f hdrop
      have hge : 0 ≤ a.dropPriority :=
        h0' a (hperm.mem_iff.mp (List.mem_of_mem_take ha))
      rw [hfdp] at hle
      exact le_antisymm hle hge
    have hcount_take : (sorted.take targetCount).countP
        (fun g => decide (g.dropPriority = 0)) = targetCount := by
      rw [List.countP_eq_length.mpr (fun a ha => decide_eq_true (htake_zero a ha))]
      rw [List.length_take]
      omega
    have hcount_drop : 0 < (sorted.drop targetCount).countP
        (fun g => decide (g.dropPriority = 0)) :=
      List.countP_pos_iff.mpr ⟨f, hdrop, decide_eq_true hfdp⟩
    have hcount_all : sorted.countP (fun g => decide (g.dropPriority = 0)) =
        frames.countP (fun g => decide (g.dropPriority = 0)) :=
      hperm.countP_eq _
    have : sorted.countP (fun g => decide (g.dropPriority = 0)) =
        (sorted.take targetCount).countP (fun g => decide (g.dropPriority = 0)) +
        (sorted.drop targetCount).countP (fun g => decide (g.dropPriority = 0)) := by
      conv_lhs => rw [← List.take_append_drop targetCount sorted]
      apply List.countP_append
    omega

/-- Witness for C1 (amended): the two anchors are the only zero-priority
frames and are both retained. -/
theorem dropFramesForBudget_keeps_zero_priority_witness :
    ([testSF 0 0, testSF 1 (1/2), testSF 2 0].all
      (fun f => decide (0 ≤ f.dropPriority)) = true) ∧
    ([testSF 0 0, testSF 1 (1/2), testSF 2 0].countP
      (fun f => decide (f.dropPriority = 0)) ≤ 2) ∧
    testSF 2 0 ∈ dropFramesForBudget [testSF 0 0, testSF 1 (1/2), testSF 2 0] 2 :=
  ⟨by with_unfolding_all rfl, of_decide_eq_true (by with_unfolding_all rfl),
   dropFramesForBudget_keeps_zero_priority _ 2 (by with_unfolding_all rfl)
     (of_decide_eq_true (by with_unfolding_all rfl)) (testSF 2 0)
     (of_decide_eq_true (by with_unfolding_all rfl)) (by with_unfolding_all rfl)⟩

/-- Looking up the key just assigned returns the assigned profile. -/
theorem lookupReg_setReg_self (r : Registry) (k : String) (p : ModelProfile) :
    lookupReg (setReg r k p) k = some p := by
  unfold setReg lookupReg
  split
  · rename_i hany
    induction r with
    | nil => simp at hany
    | cons e t ih =>
      simp only [List.map_cons]
      by_cases he : (e.1 == k) = true
      · rw [if_pos he]
        rw [List.find?_cons_of_pos _ (by simp)]
        rfl
      · rw [if_neg he]
        rw [List.find?_cons_of_neg _ (by simpa using he)]
        apply ih
        simp only [List.any_cons, he, Bool.false_or] at hany
        exact hany
  · rename_i hany
    have hnone : List.find? (fun e => e.1 == k) r = none := by
      rw [List.find?_eq_none]
      intro x hx hxk
      exact hany (List.any_eq_true.mpr ⟨x, hx, hxk⟩)
    rw [List.find?_append, hnone]
    simp [List.find?]

/-- The overwrite-map of `setReg` does not disturb lookups of other keys. -/
theorem find?_overwrite (t : Registry) (k k' : String) (p : ModelProfile)
    (hne : k' ≠ k) :
    List.find? (fun e => e.1 == k')
        (t.map (fun e => if e.1 == k then (k, p) else e)) =
      List.find? (fun e => e.1 == k') t := by
  induction t with
  | nil => rfl
  | cons e t ih =>
    simp only [List.map_cons]
    by_cases he : (e.1 == k) = true
    · rw [if_pos he]
      have hek : e.1 = k := by simpa using he
      have h1 : ((k : String) == k') = false := by
        simpa using fun h => hne h.symm
      simp only [List.find?_cons, hek, h1]
      exact ih
    · rw [if_neg he]
      by_cases he' : (e.1 == k') = true
      · simp only [List.find?_cons, he']
      · have h2 : (e.1 == k') = false := by simpa using he'
        simp only [List.find?_cons, h2]
        exact ih

/-- Assigning key `k` leaves lookups of any other key unchanged. -/
theorem lookupReg_setReg_ne (r : Registry) (k k' : String) (p : ModelProfile)
    (hne : k' ≠ k) : lookupReg (setReg r k p) k' = lookupReg r k' := by
  unfold setReg lookupReg
  split
  · rw [find?_overwrite r k k' p hne]
  · rw [List.find?_append]
    have h1 : ((k : String) == k') = false := by
      simpa using fun h => hne h.symm
    have : List.find? (fun e => e.1 == k') [(k, p)] = none := by
      simp only [List.find?_cons, List.find?_nil, h1]
    rw [this]
    simp

/-- Every profile a lookup can return is stored in the registry. -/
theorem lookupReg_mem {r : Registry} {s : String} {b : ModelProfile}
    (h : lookupReg r s = some b) : ∃ k, (k, b) ∈ r := by
  unfold lookupReg at h
  cases hf : List.find? (fun e => e.1 == s) r with
  | none => rw [hf] at h; cases h
  | some e =>
    rw [hf] at h
    have hmem := List.mem_of_find?_eq_some hf
    refine ⟨e.1, ?_⟩
    have : e.2 = b := by simpa using h
    rw [← this]
    simpa using hmem

/-- Every built-in profile's name consists of lowercase letters and hyphens. -/
theorem builtin_names_good (b : ModelProfile) (h : ∃ k, (k, b) ∈ builtinProfiles) :
    goodName (jsToLower b.name) = true := by
  obtain ⟨k, hk⟩ := h
  simp only [builtinProfiles, List.mem_cons, List.mem_singleton, Prod.mk.injEq,
    List.not_mem_nil, or_false] at hk
  rcases hk with ⟨_, rfl⟩ | ⟨_, rfl⟩ | ⟨_, rfl⟩ | ⟨_, rfl⟩ <;> with_unfolding_all rfl

/-- A map that fixes every member of a list is the identity on it. -/
theorem list_map_id_of_mem {α : Type} {f : α → α} :
    ∀ {l : List α}, (∀ x ∈ l, f x = x) → l.map f = l
  | [], _ => rfl
  | a :: t, h => by
    rw [List.map_cons, h a (List.mem_cons_self a t),
      list_map_id_of_mem (fun x hx => h x (List.mem_cons_of_mem a hx))]

/-- Conversely, a map that leaves a list unchanged fixes every member. -/
theorem list_mem_of_map_id {α : Type} {f : α → α} :
    ∀ {l : List α}, l.map f = l → ∀ x ∈ l, f x = x
  | [], _, x, hx => absurd hx (List.not_mem_nil x)
  | a :: t, h, x, hx => by
    rw [List.map_cons, List.cons.injEq] at h
    rcases List.mem_cons.mp hx with rfl | hx2
    · exact h.1
    · exact list_mem_of_map_id h.2 x hx2

/-- On names already made of lowercase letters and hyphens, the lookup
normalization is the identity. -/
theorem normalizeName_of_good (s : String) (h : goodName (jsToLower s) = true) :
    normalizeName s = jsToLower s := by
  have hall := List.all_eq_true.mp h
  have hdata : (jsToLower s).data.map (fun c => if c.isLower then c else '-') =
      (jsToLower s).data := by
    apply list_map_id_of_mem
    intro c hc
    rcases Bool.or_eq_true_iff.mp (hall c hc) with hl | hd
    · rw [if_pos hl]
    · rw [if_neg]
      · exact (beq_iff_eq.mp hd).symm
      · rw [beq_iff_eq.mp hd]
        exact of_decide_eq_false (by with_unfolding_all rfl)
  show (⟨(jsToLower s).data.map (fun c => if c.isLower then c else '-')⟩ : String) =
    jsToLower s
  rw [hdata]

/-- On any other name, the normalization changes the string. -/
theorem normalizeName_ne_of_bad (s : String) (h : goodName (jsToLower s) = false) :
    normalizeName s ≠ jsToLower s := by
  intro hEq
  obtain ⟨c, hc, hbad⟩ := List.all_eq_false.mp h
  have hdata : (jsToLower s).data.map (fun c => if c.isLower then c else '-') =
      (jsToLower s).data := congrArg String.data hEq
  have hfix := list_mem_of_map_id hdata c hc
  rw [Bool.or_eq_true_iff] at hbad
  push_neg at hbad
  rw [if_neg (by simp [hbad.1])] at hfix
  apply hbad.2
  rw [← hfix]
  rfl

/-- C9 (amended).  After `registerModelProfile p`, `getModelProfile p.name`
returns `p` exactly when the lowercased name consists only of the letters
`a-z` and hyphens (the normalization fixes it).  For every other name the
lookup instead returns whatever the registry holds under the *normalized*
name - possibly another built-in such as `claude-sonnet` - falling back to
the `claude-code` default, and never the freshly registered `p`. -/
theorem registry_roundtrip (p : ModelProfile) :
    (getModelProfile (registerModelProfile builtinProfiles p) p.name = p ↔
      goodName (jsToLower p.name) = true) ∧
    getModelProfile (registerModelProfile builtinProfiles p) p.name =
      (lookupReg (registerModelProfile builtinProfiles p)
        (normalizeName p.name)).getD claudeCodeProfile := by
  by_cases hg : goodName (jsToLower p.name) = true
  · have hnorm : normalizeName p.name = jsToLower p.name := normalizeName_of_good _ hg
    have hlook : lookupReg (registerModelProfile builtinProfiles p)
        (normalizeName p.name) = some p := by
      rw [hnorm]
      exact lookupReg_setReg_self builtinProfiles (jsToLower p.name) p
    constructor
    · constructor
      · intro _
        exact hg
      · intro _
        unfold getModelProfile
        rw [hlook]
        rfl
    · unfold getModelProfile
      rw [hlook]
      rfl
  · have hg' : goodName (jsToLower p.name) = false := Bool.eq_false_iff.mpr hg
    have hnorm : normalizeName p.name ≠ jsToLower p.name := normalizeName_ne_of_bad _ hg'
    have hlook : lookupReg (registerModelProfile builtinProfiles p)
        (normalizeName p.name) = lookupReg builtinProfiles (normalizeName p.name) :=
      lookupReg_setReg_ne builtinProfiles (jsToLower p.name) (normalizeName p.name) p hnorm
    have hccname : ("claude-code" : String) ≠ jsToLower p.name := by
      intro hEq
      rw [← hEq] at hg'
      have htrue : goodName ("claude-code" : String) = true := by
        with_unfolding_all rfl
      simp [htrue] at hg'
    have hccl : lookupReg (registerModelProfile builtinProfiles p) "claude-code" =
        some claudeCodeProfile := by
      have hstep := lookupReg_setReg_ne builtinProfiles (jsToLower p.name)
        "claude-code" p hccname
      exact hstep.trans (by with_unfolding_all rfl)
    have hres : getModelProfile (registerModelProfile builtinProfiles p) p.name =
        (lookupReg builtinProfiles (normalizeName p.name)).getD claudeCodeProfile := by
      unfold getModelProfile
      rw [hlook, hccl]
      rfl
    refine ⟨?_, by rw [hres, hlook]⟩
    rw [hres]
    constructor
    · intro hEq2
      exfalso
      cases hcase : lookupReg builtinProfiles (normalizeName p.name) with
      | none =>
        rw [hcase] at hEq2
        simp only [Option.getD_none] at hEq2
        have hgood := builtin_names_good claudeCodeProfile
          ⟨"claude-code", by simp [builtinProfiles]⟩
        rw [hEq2] at hgood
        simp [hgood] at hg'
      | some b =>
        rw [hcase] at hEq2
        simp only [Option.getD_some] at hEq2
        obtain ⟨k, hk⟩ := lookupReg_mem hcase
        have hgood := builtin_names_good b ⟨k, hk⟩
        rw [hEq2] at hgood
        simp [hgood] at hg'
    · intro htrue2
      exact absurd htrue2 (by simp [hg'])

/-!
## Structural lemmas for the model-aware selector (C2, C3)
-/

/-- Scoring preserves the number of frames. -/
theorem scoreGo_length (diffOf : String → String → ℚ) (profile : ModelProfile)
    (total : ℕ) :
    ∀ (prev : Option ExtractedFrame) (i : ℕ) (l : List ExtractedFrame),
      (scoreGo diffOf profile total prev i l).length = l.length
  | _, _, [] => rfl
  | prev, i, f :: rest => by
    simp only [scoreGo, List.length_cons]
    rw [scoreGo_length diffOf profile total (some f) (i + 1) rest]

/-- Scoring preserves the frame indices, in order. -/
theorem scoreGo_map_index (diffOf : String → String → ℚ) (profile : ModelProfile)
    (total : ℕ) :
    ∀ (prev : Option ExtractedFrame) (i : ℕ) (l : List ExtractedFrame),
      (scoreGo diffOf profile total prev i l).map ScoredFrame.index =
        l.map ExtractedFrame.index
  | _, _, [] => rfl
  | prev, i, f :: rest => by
    simp only [scoreGo, List.map_cons]
    rw [scoreGo_map_index diffOf profile total (some f) (i + 1) rest]

/-- `listModify` preserves length. -/
theorem listModify_length (g : α → α) :
    ∀ (k : ℕ) (l : List α), (listModify g k l).length = l.length
  | 0, [] => rfl
  | _ + 1, [] => rfl
  | 0, _ :: _ => rfl
  | k + 1, a :: t => by
    simp only [listModify, List.length_cons]
    rw [listModify_length g k t]

/-- `listModify` with a map-invariant update preserves any such map. -/
theorem listModify_map {β : Type} (g : α → α) (h : α → β)
    (hg : ∀ x, h (g x) = h x) :
    ∀ (k : ℕ) (l : List α), (listModify g k l).map h = l.map h
  | 0, [] => rfl
  | _ + 1, [] => rfl
  | 0, a :: t => by simp only [listModify, List.map_cons, hg a]
  | k + 1, a :: t => by
    simp only [listModify, List.map_cons]
    rw [listModify_map g h hg k t]

/-- Anchor mutation preserves length. -/
theorem applyAnchors_length (l : List ScoredFrame) :
    (applyAnchors l).length = l.length := by
  unfold applyAnchors
  rw [listModify_length, listModify_length]

/-- Anchor mutation preserves the frame indices. -/
theorem applyAnchors_map_index (l : List ScoredFrame) :
    (applyAnchors l).map ScoredFrame.index = l.map ScoredFrame.index := by
  unfold applyAnchors
  rw [listModify_map endAnchor ScoredFrame.index (fun x => rfl),
    listModify_map startAnchor ScoredFrame.index (fun x => rfl)]

/-- Reason assignment does not change the frame index. -/
theorem assignReason_index (f : ScoredFrame) :
    (assignReason f).index = f.index := by
  unfold assignReason
  split_ifs <;> rfl

/-- `jsSliceTo` with a non-negative end is a plain `take`. -/
theorem jsSliceTo_of_nonneg {k : ℤ} (h : 0 ≤ k) (l : List α) :
    jsSliceTo k l = l.take k.toNat := by
  unfold jsSliceTo
  rw [if_neg (by omega)]

/-- `l.getD (l.length - 1)` is the last element of a non-empty list. -/
theorem getD_length_sub_one (junk : α) :
    ∀ (l : List α) (h : l ≠ []), l.getD (l.length - 1) junk = l.getLast h
  | [], h => absurd rfl h
  | [a], _ => rfl
  | a :: b :: t, _ => by
    have htail := getD_length_sub_one junk (b :: t) (List.cons_ne_nil b t)
    rw [List.getLast_cons (List.cons_ne_nil b t)]
    simp only [List.length_cons] at htail ⊢
    simpa using htail

/-- Decomposition of a list with at least two elements into its first
element, interior and last element - the shape used by the anchor logic. -/
theorem list_decomp (junk : α) (l : List α) (h : 2 ≤ l.length) :
    l = l.getD 0 junk :: ((l.drop 1).dropLast ++ [l.getD (l.length - 1) junk]) := by
  match l, h with
  | a :: b :: t, _ =>
    have hne : (b :: t) ≠ [] := List.cons_ne_nil b t
    have hlast : (a :: b :: t).getD ((a :: b :: t).length - 1) junk =
        (b :: t).getLast hne := by
      have := getD_length_sub_one junk (b :: t) hne
      simp only [List.length_cons] at this ⊢
      simpa using this
    rw [hlast]
    simp only [List.getD_cons_zero, List.drop_succ_cons, List.drop_zero]
    rw [List.dropLast_append_getLast hne]

/-- A permutation with equal, duplicate-free images under a map is an
equality of lists. -/
theorem perm_map_eq {β : Type} {f : α → β} :
    ∀ {l₁ l₂ : List α}, List.Perm l₁ l₂ → l₁.map f = l₂.map f →
      (l₁.map f).Nodup → l₁ = l₂
  | [], l₂, hp, _, _ => (hp.nil_eq).symm ▸ rfl
  | a :: t₁, l₂, hp, hm, hn => by
    match l₂ with
    | [] => exact absurd hp.symm.nil_eq (by simp)
    | b :: t₂ =>
      simp only [List.map_cons, List.cons.injEq] at hm
      have hab : a = b := by
        have hmem : a ∈ b :: t₂ := hp.subset (List.mem_cons_self a t₁)
        rcases List.mem_cons.mp hmem with h | h
        · exact h
        · exfalso
          have : f a ∈ t₂.map f := List.mem_map_of_mem f h
          rw [← hm.2] at this
          simp only [List.map_cons, List.nodup_cons] at hn
          exact hn.1 (hm.1 ▸ this)
      subst hab
      have hp' := hp.cons_inv
      simp only [List.map_cons, List.nodup_cons] at hn
      rw [perm_map_eq hp' hm.2 hn.2]

/-- Inserting within bounds is a permutation of consing. -/
theorem insertIdx_perm_cons (a : α) :
    ∀ (k : ℕ) (l : List α), k ≤ l.length → List.Perm (l.insertIdx k a) (a :: l)
  | 0, l, _ => List.Perm.refl _
  | k + 1, [], h => absurd h (by simp)
  | k + 1, b :: t, h => by
    rw [List.insertIdx_succ_cons]
    exact List.Perm.trans
      (List.Perm.cons b (insertIdx_perm_cons a k t (by simpa using h)))
      (List.Perm.swap a b t)

/-- One `ensureTemporalCoverage` step grows the result by at most one. -/
theorem etcStep_length (allFrames : List ScoredFrame) (maxGap : ℚ) (i : ℕ)
    (result : List ScoredFrame) :
    (etcStep allFrames maxGap i result).length = result.length ∨
      (etcStep allFrames maxGap i result).length = result.length + 1 := by
  unfold etcStep
  simp only []
  split
  · split
    · split
      · exact Or.inl rfl
      · rcases le_or_lt (i + 1) result.length with h | h
        · exact Or.inr (List.length_insertIdx (i + 1) result h)
        · rw [List.insertIdx_of_length_lt _ _ _ h]
          exact Or.inl rfl
    · exact Or.inl rfl
  · exact Or.inl rfl

/-- One step preserves duplicate-freeness of the frame indices. -/
theorem etcStep_nodup (allFrames : List ScoredFrame) (maxGap : ℚ) (i : ℕ)
    (result : List ScoredFrame)
    (hn : (result.map ScoredFrame.index).Nodup) :
    ((etcStep allFrames maxGap i result).map ScoredFrame.index).Nodup := by
  unfold etcStep
  simp only []
  split
  · split
    · split
      · exact hn
      · rename_i fillFrame hfind hnotmem
        rcases le_or_lt (i + 1) result.length with h | h
        · have hperm := insertIdx_perm_cons
            ({ fillFrame with reason := "Coverage frame - filling temporal gap" })
            (i + 1) result h
          have hmapperm := hperm.map ScoredFrame.index
          apply hmapperm.nodup_iff.mpr
          simp only [List.map_cons]
          rw [List.nodup_cons]
          refine ⟨?_, hn⟩
          intro hmem
          apply hnotmem
          simp only [List.any_eq_true]
          obtain ⟨g, hg, hgi⟩ := List.mem_map.mp hmem
          exact ⟨g, hg, by simp [hgi]⟩
        · rw [List.insertIdx_of_length_lt _ _ _ h]
          exact hn
    · exact hn
  · exact hn

/-- The coverage walk never grows the result beyond `maxCount` when it starts
within `maxCount`. -/
theorem etcGo_length_le (allFrames : List ScoredFrame) (maxCount : ℕ) (maxGap : ℚ) :
    ∀ (fuel i : ℕ) (result : List ScoredFrame), maxCount - i ≤ fuel →
      result.length ≤ maxCount →
      (etcGo allFrames maxCount maxGap i result).length ≤ maxCount := by
  intro fuel
  induction fuel with
  | zero =>
    intro i result hfuel hlen
    rw [etcGo]
    rw [dif_neg]
    · exact hlen
    · rintro ⟨h1, h2⟩
      omega
  | succ fuel ih =>
    intro i result hfuel hlen
    rw [etcGo]
    split
    · rename_i hguard
      apply ih (i + 1)
      · omega
      · rcases etcStep_length allFrames maxGap i result with h | h
        · omega
        · omega
    · exact hlen

/-- The coverage walk preserves duplicate-freeness of the frame indices. -/
theorem etcGo_nodup (allFrames : List ScoredFrame) (maxCount : ℕ) (maxGap : ℚ) :
    ∀ (fuel i : ℕ) (result : List ScoredFrame), maxCount - i ≤ fuel →
      (result.map ScoredFrame.index).Nodup →
      ((etcGo allFrames maxCount maxGap i result).map ScoredFrame.index).Nodup := by
  intro fuel
  induction fuel with
  | zero =>
    intro i result hfuel hn
    rw [etcGo]
    rw [dif_neg]
    · exact hn
    · rintro ⟨h1, h2⟩
      omega
  | succ fuel ih =>
    intro i result hfuel hn
    rw [etcGo]
    split
    · rename_i hguard
      exact ih (i + 1) _ (by omega) (etcStep_nodup allFrames maxGap i result hn)
    · exact hn

/-- The walk is the identity when the result already has `maxCount` frames. -/
theorem etcGo_of_full (allFrames : List ScoredFrame) (maxCount : ℕ) (maxGap : ℚ)
    (i : ℕ) (result : List ScoredFrame) (h : maxCount ≤ result.length) :
    etcGo allFrames maxCount maxGap i result = result := by
  rw [etcGo]
  rw [dif_neg]
  rintro ⟨h1, h2⟩
  omega

/-- No adjacent pair of the sequence has an index gap above `maxGap`:
the temporal-coverage postcondition the spec claims. -/
def gapsOk (maxGap : ℚ) : List ScoredFrame → Bool
  | [] => true
  | [_] => true
  | a :: b :: t =>
    decide (((b.index : ℚ) - (a.index : ℚ)) ≤ maxGap) && gapsOk maxGap (b :: t)

/-- A sequence whose indices are the consecutive block `range' k n` has all
gaps equal to 1, hence bounded by any `maxGap ≥ 1`. -/
theorem gapsOk_range' {maxGap : ℚ} (hmg : 1 ≤ maxGap) :
    ∀ (l : List ScoredFrame) (k n : ℕ),
      l.map ScoredFrame.index = List.range' k n → gapsOk maxGap l = true
  | [], _, _, _ => rfl
  | [_], _, _, _ => rfl
  | a :: b :: t, k, n, h => by
    have hlen : n = t.length + 2 := by
      have hl := congrArg List.length h
      simp [List.length_range'] at hl
      omega
    subst hlen
    rw [List.range'_succ, List.range'_succ] at h
    simp only [List.map_cons, List.cons.injEq] at h
    obtain ⟨ha, hb, ht⟩ := h
    unfold gapsOk
    rw [Bool.and_eq_true]
    constructor
    · rw [decide_eq_true_iff, ha, hb]
      push_cast
      linarith
    · exact gapsOk_range' hmg (b :: t) (k + 1) (t.length + 1)
        (by rw [List.range'_succ]
            simp only [List.map_cons, List.cons.injEq]
            exact ⟨hb, ht⟩)

/-- Extracting one adjacent-gap bound from `gapsOk`. -/
theorem gapsOk_pair {maxGap : ℚ} :
    ∀ (l : List ScoredFrame), gapsOk maxGap l = true → ∀ i : ℕ, i + 1 < l.length →
      ((l.getD (i + 1) junkSF).index : ℚ) - ((l.getD i junkSF).index : ℚ) ≤ maxGap
  | [], _, i, h => absurd h (by simp)
  | [_], _, i, h => by simp at h
  | a :: b :: t, hok, 0, _ => by
    unfold gapsOk at hok
    rw [Bool.and_eq_true] at hok
    simpa using (decide_eq_true_iff).mp hok.1
  | a :: b :: t, hok, i + 1, h => by
    unfold gapsOk at hok
    rw [Bool.and_eq_true] at hok
    have := gapsOk_pair (b :: t) hok.2 i (by simpa using h)
    simpa using this

/-- A step of the coverage walk is the identity on gap-free sequences. -/
theorem etcStep_id_of_gapsOk (allFrames : List ScoredFrame) (maxGap : ℚ) (i : ℕ)
    (result : List ScoredFrame) (hok : gapsOk maxGap result = true)
    (hi : i + 1 < result.length) :
    etcStep allFrames maxGap i result = result := by
  unfold etcStep
  simp only []
  rw [if_neg]
  rw [not_lt]
  exact gapsOk_pair result hok i hi

/-- The whole coverage walk is the identity on gap-free sequences. -/
theorem etcGo_id_of_gapsOk (allFrames : List ScoredFrame) (maxCount : ℕ)
    (maxGap : ℚ) :
    ∀ (fuel i : ℕ) (result : List ScoredFrame), maxCount - i ≤ fuel →
      gapsOk maxGap result = true →
      etcGo allFrames maxCount maxGap i result = result := by
  intro fuel
  induction fuel with
  | zero =>
    intro i result hfuel hok
    rw [etcGo]
    rw [dif_neg]
    rintro ⟨h1, h2⟩
    omega
  | succ fuel ih =>
    intro i result hfuel hok
    rw [etcGo]
    split
    · rename_i hguard
      rw [etcStep_id_of_gapsOk allFrames maxGap i result hok hguard.1]
      exact ih (i + 1) result (by omega) hok
    · rfl

/-- On a non-empty frame array the selector succeeds, and `getD` exposes the
selected list. -/
theorem smaf_getD (diffOf : String → String → ℚ) (frames : List ExtractedFrame)
    (profile : ModelProfile) (targetCount : ℕ) (h : frames.isEmpty = false) :
    (selectModelAlignedFrames diffOf frames profile targetCount).getD [] =
      ensureTemporalCoverage (smafSelected diffOf frames profile targetCount)
        (smafScored diffOf frames profile) targetCount := by
  unfold selectModelAlignedFrames
  rw [h]
  rfl

/-- The scored array keeps one entry per input frame. -/
theorem smafScored_length (diffOf : String → String → ℚ)
    (frames : List ExtractedFrame) (profile : ModelProfile) :
    (smafScored diffOf frames profile).length = frames.length := by
  unfold smafScored
  rw [applyAnchors_length, scoreGo_length]

/-- The scored array carries the input frame indices, in order. -/
theorem smafScored_map_index (diffOf : String → String → ℚ)
    (frames : List ExtractedFrame) (profile : ModelProfile) :
    (smafScored diffOf frames profile).map ScoredFrame.index =
      frames.map ExtractedFrame.index := by
  unfold smafScored
  rw [applyAnchors_map_index, scoreGo_map_index]

/-- The candidate list never exceeds `targetCount - 2` entries when
`targetCount ≥ 2`. -/
theorem smafCandidates_length_le (diffOf : String → String → ℚ)
    (frames : List ExtractedFrame) (profile : ModelProfile) (targetCount : ℕ)
    (h2t : 2 ≤ targetCount) :
    (smafCandidates diffOf frames profile targetCount).length ≤ targetCount - 2 := by
  unfold smafCandidates
  rw [jsSliceTo_of_nonneg (by omega)]
  rw [List.length_map]
  have htn : ((targetCount : ℤ) - 2).toNat = targetCount - 2 := by omega
  rw [htn]
  exact List.length_take_le _ _

/-- C2 counterexample.  On a single-frame array (non-empty) the source pushes
the same object as both anchors: the selection contains the frame twice, so
the result has two entries with the same index. -/
theorem selectModelAlignedFrames_duplicate_on_singleton :
    (selectModelAlignedFrames zeroOracle [testEF 0] claudeCodeProfile 6) ≠ none ∧
    (((selectModelAlignedFrames zeroOracle [testEF 0] claudeCodeProfile 6).getD []).map
        ScoredFrame.index) = [0, 0] ∧
    ¬ ((((selectModelAlignedFrames zeroOracle [testEF 0] claudeCodeProfile 6).getD []).map
        ScoredFrame.index).Nodup) :=
  ⟨of_decide_eq_true (by with_unfolding_all rfl),
   by with_unfolding_all rfl,
   of_decide_eq_true (by with_unfolding_all rfl)⟩

/-- C2 (amended).  For frame arrays with at least two frames and pairwise
distinct indices, and `targetCount ≥ 2`, the model-aware selection has at
most `targetCount` elements and no two entries share a frame index. -/
theorem selectModelAlignedFrames_count_nodup (diffOf : String → String → ℚ)
    (frames : List ExtractedFrame) (profile : ModelProfile) (targetCount : ℕ)
    (h2n : 2 ≤ frames.length) (h2t : 2 ≤ targetCount)
    (hnd : (frames.map ExtractedFrame.index).Nodup) :
    ((selectModelAlignedFrames diffOf frames profile targetCount).getD []).length ≤
      targetCount ∧
    ((((selectModelAlignedFrames diffOf frames profile targetCount).getD []).map
      ScoredFrame.index).Nodup) := by
  have hne : frames.isEmpty = false := by
    cases frames with
    | nil => simp at h2n
    | cons a t => rfl
  rw [smaf_getD diffOf frames profile targetCount hne]
  unfold ensureTemporalCoverage
  have hslen := smafScored_length diffOf frames profile
  have hsmap := smafScored_map_index diffOf frames profile
  have hcandlen := smafCandidates_length_le diffOf frames profile targetCount h2t
  have hsellen : (smafSelected diffOf frames profile targetCount).length =
      (smafCandidates diffOf frames profile targetCount).length + 2 := by
    unfold smafSelected
    rw [(List.perm_insertionSort idxLe _).length_eq]
    simp
  constructor
  · rw [(List.perm_insertionSort idxLe _).length_eq]
    apply etcGo_length_le _ _ _ targetCount 0 _ (by omega)
    omega
  · have hsnodup : ((smafScored diffOf frames profile).map ScoredFrame.index).Nodup := by
      rw [hsmap]; exact hnd
    have hslen2 : 2 ≤ (smafScored diffOf frames profile).length := by omega
    have hdecomp := list_decomp junkSF (smafScored diffOf frames profile) hslen2
    have hnd2 : ((((smafScored diffOf frames profile).getD 0 junkSF) ::
        ((((smafScored diffOf frames profile).drop 1).dropLast) ++
          [(smafScored diffOf frames profile).getD
            ((smafScored diffOf frames profile).length - 1) junkSF])).map
        ScoredFrame.index).Nodup := by
      rw [← hdecomp]
      exact hsnodup
    simp only [List.map_cons, List.map_append, List.map_cons, List.map_nil] at hnd2
    rw [List.nodup_cons] at hnd2
    obtain ⟨hfa, htail⟩ := hnd2
    rw [List.nodup_append] at htail
    obtain ⟨hInodup, _, hdisj⟩ := htail
    have hla : ((smafScored diffOf frames profile).getD
        ((smafScored diffOf frames profile).length - 1) junkSF).index ∉
        ((((smafScored diffOf frames profile).drop 1).dropLast).map ScoredFrame.index) :=
      fun h => hdisj h (by simp)
    have hcandmap : (smafCandidates diffOf frames profile targetCount).map
        ScoredFrame.index =
        (jsSliceTo ((targetCount : ℤ) - 2)
          (List.insertionSort rvGe
            (((smafScored diffOf frames profile).drop 1).dropLast))).map
          ScoredFrame.index := by
      unfold smafCandidates
      rw [List.map_map]
      apply List.map_congr_left
      intro x _
      exact assignReason_index x
    have hsubl : List.Sublist
        ((jsSliceTo ((targetCount : ℤ) - 2)
          (List.insertionSort rvGe
            (((smafScored diffOf frames profile).drop 1).dropLast))).map
          ScoredFrame.index)
        ((List.insertionSort rvGe
          (((smafScored diffOf frames profile).drop 1).dropLast)).map
          ScoredFrame.index) := by
      rw [jsSliceTo_of_nonneg (by omega)]
      exact (List.take_sublist _ _).map ScoredFrame.index
    have hpermI : List.Perm
        ((List.insertionSort rvGe
          (((smafScored diffOf frames profile).drop 1).dropLast)).map ScoredFrame.index)
        ((((smafScored diffOf frames profile).drop 1).dropLast).map ScoredFrame.index) :=
      (List.perm_insertionSort rvGe _).map ScoredFrame.index
    have hcand_sub : ∀ x ∈ (smafCandidates diffOf frames profile targetCount).map
        ScoredFrame.index,
        x ∈ (((smafScored diffOf frames profile).drop 1).dropLast).map
          ScoredFrame.index := by
      intro x hx
      rw [hcandmap] at hx
      exact hpermI.mem_iff.mp (hsubl.subset hx)
    have hcand_nodup : ((smafCandidates diffOf frames profile targetCount).map
        ScoredFrame.index).Nodup := by
      rw [hcandmap]
      exact List.Nodup.sublist hsubl (hpermI.nodup_iff.mpr hInodup)
    have hrawnodup : ((((smafScored diffOf frames profile).getD 0 junkSF) ::
        smafCandidates diffOf frames profile targetCount ++
        [(smafScored diffOf frames profile).getD
          ((smafScored diffOf frames profile).length - 1) junkSF]).map
        ScoredFrame.index).Nodup := by
      simp only [List.map_cons, List.map_append, List.map_cons, List.map_nil]
      rw [List.nodup_append]
      refine ⟨?_, List.nodup_singleton _, ?_⟩
      · rw [List.nodup_cons]
        constructor
        · intro hmem
          exact hfa (List.mem_append_left _ (hcand_sub _ hmem))
        · exact hcand_nodup
      · intro x hx hx2
        have hxla : x = ((smafScored diffOf frames profile).getD
            ((smafScored diffOf frames profile).length - 1) junkSF).index := by
          simpa using hx2
        rcases List.mem_cons.mp hx with h | h
        · apply hfa
          apply List.mem_append_right
          rw [← h, hxla]
          simp
        · apply hla
          rw [← hxla]
          exact hcand_sub _ h
    have hselnodup : ((smafSelected diffOf frames profile targetCount).map
        ScoredFrame.index).Nodup := by
      unfold smafSelected
      exact (((List.perm_insertionSort idxLe _).map ScoredFrame.index).nodup_iff).mpr
        hrawnodup
    simp only []
    apply (((List.perm_insertionSort idxLe _).map ScoredFrame.index).nodup_iff).mpr
    exact etcGo_nodup _ targetCount _ targetCount 0 _ (by omega) hselnodup

/-- Witness for C2 (amended) at three distinct frames and `targetCount = 2`. -/
theorem selectModelAlignedFrames_count_nodup_witness :
    2 ≤ ([testEF 0, testEF 1, testEF 2] : List ExtractedFrame).length ∧
    (2 : ℕ) ≤ 2 ∧
    (([testEF 0, testEF 1, testEF 2] : List ExtractedFrame).map
      ExtractedFrame.index).Nodup ∧
    (((selectModelAlignedFrames zeroOracle [testEF 0, testEF 1, testEF 2]
        claudeCodeProfile 2).getD []).length ≤ 2 ∧
      ((((selectModelAlignedFrames zeroOracle [testEF 0, testEF 1, testEF 2]
        claudeCodeProfile 2).getD []).map ScoredFrame.index).Nodup)) :=
  ⟨by decide, by decide, of_decide_eq_true (by with_unfolding_all rfl),
   selectModelAlignedFrames_count_nodup zeroOracle _ claudeCodeProfile 2
     (by decide) (by decide) (of_decide_eq_true (by with_unfolding_all rfl))⟩

/-!
## C3: the temporal-coverage postcondition
-/

/-- C3 counterexample.  Three consecutive frames with `targetCount = 4`: the
returned sequence has 3 < 4 frames, yet every consecutive gap is 1, which
exceeds 25% of the total frame count (0.75).  The single left-to-right pass
cannot repair these gaps (the exact midpoint frames are already selected), so
the claimed postcondition fails. -/
theorem selectModelAlignedFrames_gap_persists :
    (((selectModelAlignedFrames zeroOracle [testEF 0, testEF 1, testEF 2]
        claudeCodeProfile 4).getD []).map ScoredFrame.index) = [0, 1, 2] ∧
    (((selectModelAlignedFrames zeroOracle [testEF 0, testEF 1, testEF 2]
        claudeCodeProfile 4).getD []).length < 4 ∧
    gapsOk (((3 : ℕ) : ℚ) * 0.25)
      ((selectModelAlignedFrames zeroOracle [testEF 0, testEF 1, testEF 2]
        claudeCodeProfile 4).getD []) = false) :=
  ⟨by with_unfolding_all rfl,
   of_decide_eq_true (by with_unfolding_all rfl),
   by with_unfolding_all rfl⟩

/-- C3 (amended).  For frames with consecutive indices `0..n-1`, at least 4
frames and `targetCount ≥ 2`: whenever the model-aware selection returns
fewer than `targetCount` frames, no two consecutive selected frames have an
index gap exceeding 25% of the total frame count.  (Below `targetCount` the
selection must already contain every frame, whose gaps are all 1.) -/
theorem selectModelAlignedFrames_gap_free_below_target
    (diffOf : String → String → ℚ) (frames : List ExtractedFrame)
    (profile : ModelProfile) (targetCount : ℕ)
    (h4 : 4 ≤ frames.length)
    (hidx : frames.map ExtractedFrame.index = List.range frames.length)
    (h2t : 2 ≤ targetCount)
    (hlt : ((selectModelAlignedFrames diffOf frames profile
      targetCount).getD []).length < targetCount) :
    gapsOk ((frames.length : ℚ) * 0.25)
      ((selectModelAlignedFrames diffOf frames profile targetCount).getD []) =
      true := by
  have hne : frames.isEmpty = false := by
    cases frames with
    | nil => simp at h4
    | cons a t => rfl
  rw [smaf_getD diffOf frames profile targetCount hne] at hlt ⊢
  have hslen := smafScored_length diffOf frames profile
  have hsmap := smafScored_map_index diffOf frames profile
  have hint : (((smafScored diffOf frames profile).drop 1).dropLast).length =
      frames.length - 2 := by
    rw [List.length_dropLast, List.length_drop, hslen]
    omega
  have hsortlen : (List.insertionSort rvGe
      (((smafScored diffOf frames profile).drop 1).dropLast)).length =
      frames.length - 2 := by
    rw [(List.perm_insertionSort rvGe _).length_eq, hint]
  rcases lt_or_ge frames.length targetCount with hn | hn
  · -- below target: every frame is selected and all gaps are 1
    have hcand_all : smafCandidates diffOf frames profile targetCount =
        (List.insertionSort rvGe
          (((smafScored diffOf frames profile).drop 1).dropLast)).map
          assignReason := by
      unfold smafCandidates
      rw [jsSliceTo_of_nonneg (by omega)]
      rw [List.take_of_length_le]
      rw [hsortlen]
      omega
    have hslen2 : 2 ≤ (smafScored diffOf frames profile).length := by omega
    have hdecomp := list_decomp junkSF (smafScored diffOf frames profile) hslen2
    have hmapassign :
        (((((smafScored diffOf frames profile).drop 1).dropLast).map
          assignReason).map ScoredFrame.index) =
        ((((smafScored diffOf frames profile).drop 1).dropLast).map
          ScoredFrame.index) := by
      rw [List.map_map]
      apply List.map_congr_left
      intro x _
      exact assignReason_index x
    have hsortassign :
        (((List.insertionSort rvGe
          (((smafScored diffOf frames profile).drop 1).dropLast)).map
          assignReason).map ScoredFrame.index) =
        ((List.insertionSort rvGe
          (((smafScored diffOf frames profile).drop 1).dropLast)).map
          ScoredFrame.index) := by
      rw [List.map_map]
      apply List.map_congr_left
      intro x _
      exact assignReason_index x
    have hTmap : (((smafScored diffOf frames profile).getD 0 junkSF ::
        ((((smafScored diffOf frames profile).drop 1).dropLast).map assignReason) ++
        [(smafScored diffOf frames profile).getD
          ((smafScored diffOf frames profile).length - 1) junkSF]).map
        ScoredFrame.index) = List.range frames.length := by
      simp only [List.map_append, List.map_cons, List.map_nil, hmapassign]
      rw [← hidx, ← hsmap]
      conv_rhs => rw [hdecomp]
      simp
    have hpermST : List.Perm (smafSelected diffOf frames profile targetCount)
        ((smafScored diffOf frames profile).getD 0 junkSF ::
          ((((smafScored diffOf frames profile).drop 1).dropLast).map assignReason) ++
          [(smafScored diffOf frames profile).getD
            ((smafScored diffOf frames profile).length - 1) junkSF]) := by
      unfold smafSelected
      rw [hcand_all]
      refine List.Perm.trans (List.perm_insertionSort idxLe _) ?_
      exact List.Perm.append_right _
        (List.Perm.cons _ ((List.perm_insertionSort rvGe _).map assignReason))
    have hs1 : List.Pairwise (fun a b : ℕ => a ≤ b)
        ((smafSelected diffOf frames profile targetCount).map ScoredFrame.index) := by
      apply List.pairwise_map.mpr
      exact List.sorted_insertionSort idxLe _
    have hs2 : List.Pairwise (fun a b : ℕ => a ≤ b)
        (((smafScored diffOf frames profile).getD 0 junkSF ::
          ((((smafScored diffOf frames profile).drop 1).dropLast).map assignReason) ++
          [(smafScored diffOf frames profile).getD
            ((smafScored diffOf frames profile).length - 1) junkSF]).map
          ScoredFrame.index) := by
      rw [hTmap]
      exact List.pairwise_le_range frames.length
    have heqmap : (smafSelected diffOf frames profile targetCount).map
        ScoredFrame.index =
        (((smafScored diffOf frames profile).getD 0 junkSF ::
          ((((smafScored diffOf frames profile).drop 1).dropLast).map assignReason) ++
          [(smafScored diffOf frames profile).getD
            ((smafScored diffOf frames profile).length - 1) junkSF]).map
          ScoredFrame.index) :=
      List.eq_of_perm_of_sorted (hpermST.map ScoredFrame.index) hs1 hs2
    have hndmap : ((smafSelected diffOf frames profile targetCount).map
        ScoredFrame.index).Nodup := by
      rw [heqmap, hTmap]
      exact List.nodup_range frames.length
    have hST : smafSelected diffOf frames profile targetCount =
        ((smafScored diffOf frames profile).getD 0 junkSF ::
          ((((smafScored diffOf frames profile).drop 1).dropLast).map assignReason) ++
          [(smafScored diffOf frames profile).getD
            ((smafScored diffOf frames profile).length - 1) junkSF]) :=
      perm_map_eq hpermST heqmap hndmap
    have hmg : (1 : ℚ) ≤ ((smafScored diffOf frames profile).length : ℚ) * 0.25 := by
      rw [hslen]
      have hq : (4 : ℚ) ≤ (frames.length : ℚ) := by exact_mod_cast h4
      linarith
    have hTok : gapsOk (((smafScored diffOf frames profile).length : ℚ) * 0.25)
        ((smafScored diffOf frames profile).getD 0 junkSF ::
          ((((smafScored diffOf frames profile).drop 1).dropLast).map assignReason) ++
          [(smafScored diffOf frames profile).getD
            ((smafScored diffOf frames profile).length - 1) junkSF]) = true := by
      apply gapsOk_range' hmg _ 0 frames.length
      rw [hTmap, List.range_eq_range']
    have hTsorted : List.Sorted idxLe
        ((smafScored diffOf frames profile).getD 0 junkSF ::
          ((((smafScored diffOf frames profile).drop 1).dropLast).map assignReason) ++
          [(smafScored diffOf frames profile).getD
            ((smafScored diffOf frames profile).length - 1) junkSF]) := by
      have hps := hs2
      rw [List.pairwise_map] at hps
      exact hps
    unfold ensureTemporalCoverage
    simp only []
    rw [hST, etcGo_id_of_gapsOk _ _ _ targetCount 0 _ (by omega) hTok,
      List.Sorted.insertionSort_eq hTsorted, ← hslen]
    exact hTok
  · -- at or above target: the selection has exactly targetCount frames,
    -- contradicting the hypothesis
    exfalso
    have hcandlen : (smafCandidates diffOf frames profile targetCount).length =
        targetCount - 2 := by
      unfold smafCandidates
      rw [jsSliceTo_of_nonneg (by omega)]
      rw [List.length_map, List.length_take, hsortlen]
      omega
    have hsellen : (smafSelected diffOf frames profile targetCount).length =
        targetCount := by
      unfold smafSelected
      rw [(List.perm_insertionSort idxLe _).length_eq]
      simp only [List.length_append, List.length_cons, hcandlen]
      simp
      omega
    simp only [ensureTemporalCoverage] at hlt
    rw [etcGo_of_full _ _ _ _ _ (by omega)] at hlt
    rw [(List.perm_insertionSort idxLe _).length_eq, hsellen] at hlt
    omega

/-- Witness for C3 (amended): five consecutive frames with `targetCount = 10`
select all five frames; the result is below target and gap-free. -/
theorem selectModelAlignedFrames_gap_free_below_target_witness :
    4 ≤ ([testEF 0, testEF 1, testEF 2, testEF 3, testEF 4] :
      List ExtractedFrame).length ∧
    ([testEF 0, testEF 1, testEF 2, testEF 3, testEF 4] :
      List ExtractedFrame).map ExtractedFrame.index =
      List.range ([testEF 0, testEF 1, testEF 2, testEF 3, testEF 4] :
        List ExtractedFrame).length ∧
    (2 : ℕ) ≤ 10 ∧
    ((selectModelAlignedFrames zeroOracle
      [testEF 0, testEF 1, testEF 2, testEF 3, testEF 4]
      claudeCodeProfile 10).getD []).length < 10 ∧
    gapsOk ((([testEF 0, testEF 1, testEF 2, testEF 3, testEF 4] :
        List ExtractedFrame).length : ℚ) * 0.25)
      ((selectModelAlignedFrames zeroOracle
        [testEF 0, testEF 1, testEF 2, testEF 3, testEF 4]
        claudeCodeProfile 10).getD []) = true :=
  ⟨by decide, by decide, by decide,
   of_decide_eq_true (by with_unfolding_all rfl),
   selectModelAlignedFrames_gap_free_below_target zeroOracle _ claudeCodeProfile 10
     (by decide) (by decide) (by decide)
     (of_decide_eq_true (by with_unfolding_all rfl))⟩
